import Mathlib

/-!
# file-upload-service: authentication, sessions and the in-memory store

A shallow embedding of `src/main.go`.  The four HTTP handlers (`SignUp`, `SignIn`,
`UploadFile`, `DownloadFile`) and the helper `getUsernameFromRequest` are translated
statement by statement.  The global `store` is passed explicitly, the
`http.ResponseWriter` is a record that accumulates what the handler wrote, and the calls
that leave the process (`ioutil.WriteFile`, `http.ServeFile`, `log.Printf`) are returned
as a list of effects.

Go strings are byte sequences; they are represented by `String`, and the conversions
`[]byte(s)` and `string(b)` are the identity.  A Go `map[string]T` is an `AList`, a
finite map holding at most one entry per key.  The lock operations of `sync.RWMutex`
have no sequential content and are omitted.

The three dependencies the handlers call are not part of the repository:
`golang.org/x/crypto/bcrypt` is a parameter of the handlers that use it,
`github.com/dgrijalva/jwt-go` is a parameter of `getUsernameFromRequest` and is given a
model that follows its documented behaviour, and `net/http` multipart parsing is given a
model of `mime/multipart.Reader.ReadForm`.
-/

namespace FileUploadService

/-! ## Data model (main.go, lines 19-51) -/

/-- Wall-clock instants, in nanoseconds since the Unix epoch (the resolution of Go's `time.Time`). -/
abbrev Time := Nat

/-- Go `time.Second`, in nanoseconds. -/
def Second : Nat := 1000000000

/-- Go `time.Minute`, in nanoseconds. -/
def Minute : Nat := 60 * Second

/-- Go `Time.Unix()`: the whole seconds elapsed since the epoch. -/
def Unix (t : Time) : Int := ((t / Second : Nat) : Int)

/-- The constant `jwtKey` (line 19). -/
def jwtKey : String := "my_secret_key"

/-- Type `Credentials` (lines 21-24), the decoded JSON body of `/signup` and `/signin`. -/
structure Credentials where
  Username : String
  Password : String
  deriving DecidableEq, Repr

/-- The fields of `jwt.StandardClaims` that jwt-go validates by default. -/
structure StandardClaims where
  ExpiresAt : Int
  IssuedAt : Int
  NotBefore : Int
  deriving DecidableEq, Repr

/-- Type `Claims` (lines 26-29). -/
structure Claims where
  Username : String
  std : StandardClaims
  deriving DecidableEq, Repr

/-- Type `User` (lines 31-34). -/
structure User where
  Username : String
  Password : String
  deriving DecidableEq, Repr

/-- Type `FileInfo` (lines 36-40). -/
structure FileInfo where
  Filename : String
  UploadedAt : Time
  Uploader : String
  deriving DecidableEq, Repr

/-- Type `Store` (lines 42-46) without its lock. -/
structure Store where
  users : AList (fun _ : String => User)
  files : AList (fun _ : String => FileInfo)

/-- The initial value of the global `store` (lines 48-51): two empty maps. -/
def Store.empty : Store := ⟨∅, ∅⟩

/-! ## jwt-go -/

/-- Signing methods a token header can name. -/
inductive SigningMethod where
  | HS256
  | HS384
  | HS512
  | nonHMAC (alg : String)
  deriving DecidableEq, Repr

/-- The signature segment of a token.  The HMAC tag is kept symbolic: `hmac m key c` is the
tag that method `m` computes under `key` over the header and the claims `c`; `raw` is any
other content of the segment. -/
inductive Signature where
  | hmac (m : SigningMethod) (key : String) (c : Claims)
  | raw (s : String)
  deriving DecidableEq, Repr

/-- The value of the `token` cookie.  The wire format (three base64url segments joined by
dots) is abstracted: a value either decodes into a header naming a registered signing
method, a claims object and a signature segment, or it does not. -/
inductive TokenString where
  | compact (m : SigningMethod) (c : Claims) (sig : Signature)
  | malformed (rawValue : String)
  deriving DecidableEq, Repr

/-- The errors `jwt.ParseWithClaims` can hand back, as far as the caller tells them apart:
the package-level sentinel `jwt.ErrSignatureInvalid`, or a `*jwt.ValidationError` carrying
its bit field `Errors`. -/
inductive JwtError where
  | ErrSignatureInvalid
  | ValidationError (Errors : Nat)
  deriving DecidableEq, Repr

/-- The three results of `jwt.ParseWithClaims(tokenStr, claims, keyFunc)` that
`getUsernameFromRequest` reads: the error, the flag `tkn.Valid`, and the claims object
that the call filled in. -/
structure ParseResult where
  err : Option JwtError
  Valid : Bool
  claims : Claims
  deriving DecidableEq, Repr

def ValidationErrorMalformed : Nat := 1
def ValidationErrorSignatureInvalid : Nat := 4
def ValidationErrorExpired : Nat := 16
def ValidationErrorIssuedAt : Nat := 32
def ValidationErrorNotValidYet : Nat := 128

/-- jwt-go `verifyExp`: an absent (zero) expiry passes unless required; otherwise the token
is good while `now <= exp`. -/
def verifyExp (exp now : Int) (required : Bool) : Bool :=
  if exp = 0 then !required else decide (now ≤ exp)

/-- jwt-go `verifyIat`. -/
def verifyIat (iat now : Int) (required : Bool) : Bool :=
  if iat = 0 then !required else decide (iat ≤ now)

/-- jwt-go `verifyNbf`. -/
def verifyNbf (nbf now : Int) (required : Bool) : Bool :=
  if nbf = 0 then !required else decide (nbf ≤ now)

/-- jwt-go `StandardClaims.Valid`, returning the bit field of the validation error it
builds (zero when the claims are valid).  `now` is `TimeFunc().Unix()`. -/
def StandardClaims.Valid (c : StandardClaims) (now : Int) : Nat :=
  (if verifyExp c.ExpiresAt now false then 0 else ValidationErrorExpired)
  + (if verifyIat c.IssuedAt now false then 0 else ValidationErrorIssuedAt)
  + (if verifyNbf c.NotBefore now false then 0 else ValidationErrorNotValidYet)

/-- jwt-go `SigningMethod.Verify` with a byte-slice key: the HMAC methods recompute the tag
and compare; every other method rejects a byte-slice key. -/
def SigningMethod.Verify (m : SigningMethod) (c : Claims) (sig : Signature) (key : String) : Bool :=
  match m with
  | .nonHMAC _ => false
  | _ => decide (sig = Signature.hmac m key c)

/-- jwt-go `Token.SignedString` for the method `HS256` and a byte-slice key; with these it
does not fail. -/
def SignedString (c : Claims) (key : String) : Except String TokenString :=
  .ok (.compact .HS256 c (.hmac .HS256 key c))

/-- Modelled from the spec: `Verify(token)` of section 4.2, which the code obtains from
`jwt.ParseWithClaims` of the jwt-go dependency (not under src/).  It rejects missing or
garbled structure, rejects a signature that does not match the secret key, and rejects as
expired once the current time passes the embedded expiry.  As jwt-go does, every failure
is reported as a `*ValidationError`, and a nil error comes with `Valid = true`. -/
def ParseWithClaims (key : String) (now : Int) (tokenStr : TokenString) : ParseResult :=
  match tokenStr with
  | .malformed _ => ⟨some (.ValidationError ValidationErrorMalformed), false, ⟨"", ⟨0, 0, 0⟩⟩⟩
  | .compact m c sig =>
    let Errors := c.std.Valid now
      + (if m.Verify c sig key then 0 else ValidationErrorSignatureInvalid)
    if Errors = 0 then ⟨none, true, c⟩ else ⟨some (.ValidationError Errors), false, c⟩

/-! ## The HTTP response and the effects of a handler -/

/-- What a handler writes to the body of the response: the message of an `http.Error`, or
the JSON encoding of a `FileInfo`. -/
inductive Body where
  | text (msg : String)
  | json (fi : FileInfo)
  deriving DecidableEq, Repr

/-- The fields of `http.Cookie` that `SignIn` sets. -/
structure Cookie where
  Name : String
  Value : TokenString
  Expires : Time
  deriving DecidableEq, Repr

/-- The state of an `http.ResponseWriter`: the status code once one has been written
(`none` while the handler has written nothing), the body written so far, and the
`Set-Cookie` headers added. -/
structure ResponseWriter where
  status : Option Nat
  body : List Body
  cookies : List Cookie
  deriving DecidableEq, Repr

/-- The response writer a handler receives. -/
def ResponseWriter.fresh : ResponseWriter := ⟨none, [], []⟩

def StatusCreated : Nat := 201
def StatusBadRequest : Nat := 400
def StatusUnauthorized : Nat := 401
def StatusNotFound : Nat := 404
def StatusInternalServerError : Nat := 500

/-- Go `w.WriteHeader(code)`: the first status written is the one sent. -/
def WriteHeader (w : ResponseWriter) (code : Nat) : ResponseWriter :=
  match w.status with
  | none => { w with status := some code }
  | some _ => w

/-- Go `http.Error(w, msg, code)`: writes the status and then the message. -/
def httpError (w : ResponseWriter) (msg : String) (code : Nat) : ResponseWriter :=
  let w1 := WriteHeader w code
  { w1 with body := w1.body ++ [Body.text msg] }

/-- Go `http.SetCookie(w, cookie)`. -/
def SetCookie (w : ResponseWriter) (c : Cookie) : ResponseWriter :=
  { w with cookies := w.cookies ++ [c] }

/-- Go `json.NewEncoder(w).Encode(fileInfo)`; writing a body before any status sends 200. -/
def EncodeJson (w : ResponseWriter) (fi : FileInfo) : ResponseWriter :=
  { w with status := some (w.status.getD 200), body := w.body ++ [Body.json fi] }

/-- A path built by `filepath.Join`, kept as the elements joined. -/
structure Path where
  elem : List String
  deriving DecidableEq, Repr

/-- Go `filepath.Join(elem...)`. -/
def filepathJoin (elem : List String) : Path := ⟨elem⟩

/-- The calls by which a handler acts outside the store and the response: a completed
`ioutil.WriteFile`, one that returned an error, `http.ServeFile`, and the `log.Printf` of
line 178 with its three arguments. -/
inductive Effect where
  | WriteFile (path : Path) (data : List UInt8)
  | WriteFileFailed (path : Path)
  | ServeFile (path : Path)
  | logPrintf (filename : String) (username : String) (at_ : Time)
  deriving DecidableEq, Repr

/-- What a handler leaves behind: the response, the store, and the effects it performed. -/
structure Outcome where
  w : ResponseWriter
  store : Store
  effects : List Effect

/-- What the environment decides during one request: the clock read by the handler
(`time.Now()`), the clock read inside jwt-go (`jwt.TimeFunc()`), the entropy bcrypt draws
for its salt, and whether each of the file-system calls fails. -/
structure Env where
  now : Time
  authNow : Time
  rand : Nat
  tmpFault : Bool
  openFault : Bool
  readFault : Bool
  writeFault : Bool
  deriving DecidableEq, Repr

/-! ## bcrypt -/

/-- The two functions of `golang.org/x/crypto/bcrypt` that the handlers call, taken as a
parameter.  `GenerateFromPassword password cost rand` is the hash or `none` on error;
`CompareHashAndPassword hash password` is `true` when the Go function returns nil. -/
structure Bcrypt where
  GenerateFromPassword : String → Nat → Nat → Option String
  CompareHashAndPassword : String → String → Bool

/-- Go `bcrypt.DefaultCost`. -/
def DefaultCost : Nat := 10

/-! ## multipart forms (net/http and mime/multipart) -/

/-- One part of a `multipart/form-data` body: the field name and the file name of its
`Content-Disposition` header, and its bytes. -/
structure Part where
  FormName : String
  FileName : String
  data : List UInt8
  deriving DecidableEq, Repr

/-- Go `multipart.FileHeader`: the declared file name, the size, the bytes, and whether the
bytes are held in a temporary file on disk rather than in memory. -/
structure FileHeader where
  Filename : String
  Size : Nat
  content : List UInt8
  tmpfile : Bool
  deriving DecidableEq, Repr

/-- Go `multipart.Form`: the value fields and the file fields, in order of appearance. -/
structure Form where
  Value : List (String × List UInt8)
  File : List (String × FileHeader)
  deriving DecidableEq, Repr

/-- Go `mime/multipart.Reader.ReadForm(maxMemory)`, as documented: "ReadForm parses an
entire multipart message whose parts have a Content-Disposition of form-data.  It stores up
to maxMemory bytes + 10MB (reserved for non-file parts) in memory.  File parts which cannot
be stored in memory will be stored on disk in temporary files.  It returns
ErrMessageTooLarge if all non-file parts cannot be stored in memory."  The result is `none`
on error. -/
def readForm (tmpFault : Bool) : List Part → Int → Int → Option Form
  | [], _, _ => some ⟨[], []⟩
  | p :: ps, maxMemory, maxValueBytes =>
    if p.FormName = "" then readForm tmpFault ps maxMemory maxValueBytes
    else if p.FileName = "" then
      let n : Int := min (p.data.length : Int) (maxValueBytes + 1)
      if maxValueBytes - n < 0 then none
      else (readForm tmpFault ps maxMemory (maxValueBytes - n)).map
        (fun f => { f with Value := (p.FormName, p.data) :: f.Value })
    else
      let n : Int := min (p.data.length : Int) (maxMemory + 1)
      if n > maxMemory then
        if tmpFault then none
        else (readForm tmpFault ps maxMemory maxValueBytes).map
          (fun f => { f with File := (p.FormName, ⟨p.FileName, p.data.length, p.data, true⟩) :: f.File })
      else (readForm tmpFault ps (maxMemory - n) (maxValueBytes - n)).map
        (fun f => { f with File := (p.FormName, ⟨p.FileName, p.data.length, p.data, false⟩) :: f.File })

/-- Go `r.ParseMultipartForm(maxMemory)`: "The whole request body is parsed and up to a
total of maxMemory bytes of its file parts are stored in memory, with the remainder stored
on disk in temporary files."  The body is `none` when it is not a well-formed
`multipart/form-data` message. -/
def ParseMultipartForm (tmpFault : Bool) (body : Option (List Part)) (maxMemory : Int) : Option Form :=
  match body with
  | none => none
  | some parts => readForm tmpFault parts maxMemory (maxMemory + 10485760)

/-- Go `r.FormFile(key)` after a successful `ParseMultipartForm`: the first file stored
under `key`, opened; `none` stands for `ErrMissingFile` or a failure to open the temporary
file. -/
def FormFile (openFault : Bool) (form : Form) (key : String) : Option FileHeader :=
  match form.File.find? (fun kv => kv.1 = key) with
  | none => none
  | some (_, fh) => if fh.tmpfile && openFault then none else some fh

/-- Go `ioutil.ReadAll(file)` on an opened multipart file. -/
def ReadAll (readFault : Bool) (fh : FileHeader) : Option (List UInt8) :=
  if fh.tmpfile && readFault then none else some fh.content

/-! ## Requests -/

/-- The results of `r.Cookie("token")` that lines 185-193 tell apart: the error
`http.ErrNoCookie`, any other error, or the cookie with its value. -/
inductive CookieResult where
  | ErrNoCookie
  | otherErr
  | found (Value : TokenString)
  deriving DecidableEq, Repr

/-- A request to one of the four routes registered in `main` (lines 222-225).  A JSON body
is given by what `json.NewDecoder(r.Body).Decode(&creds)` makes of it (`none` when it
returns an error). -/
inductive Request where
  | SignUp (body : Option Credentials)
  | SignIn (body : Option Credentials)
  | UploadFile (cookie : CookieResult) (body : Option (List Part))
  | DownloadFile (cookie : CookieResult) (filename : String)
  deriving DecidableEq, Repr

/-! ## The handlers (main.go, lines 53-213) -/

/-- Function `SignUp` (lines 53-71). -/
def SignUp (bc : Bcrypt) (env : Env) (store : Store) (w : ResponseWriter)
    (body : Option Credentials) : Outcome :=
  match body with
  | none => ⟨httpError w "Invalid request payload" StatusBadRequest, store, []⟩
  | some creds =>
    match bc.GenerateFromPassword creds.Password DefaultCost env.rand with
    | none => ⟨httpError w "Failed to create user" StatusInternalServerError, store, []⟩
    | some hashedPassword =>
      ⟨WriteHeader w StatusCreated,
       { store with users := store.users.insert creds.Username ⟨creds.Username, hashedPassword⟩ },
       []⟩

/-- Function `SignIn` (lines 73-109). -/
def SignIn (bc : Bcrypt) (env : Env) (store : Store) (w : ResponseWriter)
    (body : Option Credentials) : Outcome :=
  match body with
  | none => ⟨httpError w "Invalid request payload" StatusBadRequest, store, []⟩
  | some creds =>
    let user := (store.users.lookup creds.Username).getD ⟨"", ""⟩
    let found := (store.users.lookup creds.Username).isSome
    if !found || !bc.CompareHashAndPassword user.Password creds.Password then
      ⟨httpError w "Invalid username or password" StatusUnauthorized, store, []⟩
    else
      let expirationTime := env.now + 5 * Minute
      let claims : Claims := ⟨creds.Username, ⟨Unix expirationTime, 0, 0⟩⟩
      match SignedString claims jwtKey with
      | .error _ => ⟨httpError w "Failed to create token" StatusInternalServerError, store, []⟩
      | .ok tokenString => ⟨SetCookie w ⟨"token", tokenString, expirationTime⟩, store, []⟩

/-- Function `getUsernameFromRequest` (lines 184-213).  `parse` is
`jwt.ParseWithClaims(_, claims, keyFunc)` with the key function of lines 197-199. -/
def getUsernameFromRequest (parse : TokenString → ParseResult) (w : ResponseWriter)
    (c : CookieResult) : ResponseWriter × String :=
  match c with
  | .ErrNoCookie => (httpError w "Unauthorized" StatusUnauthorized, "")
  | .otherErr => (httpError w "Bad request" StatusBadRequest, "")
  | .found tokenStr =>
    let r := parse tokenStr
    match r.err with
    | some .ErrSignatureInvalid => (httpError w "Unauthorized" StatusUnauthorized, "")
    | some _ => (httpError w "Bad request" StatusBadRequest, "")
    | none =>
      if !r.Valid then (httpError w "Unauthorized" StatusUnauthorized, "")
      else (w, r.claims.Username)

/-- Function `UploadFile` (lines 111-157); `10485760` is `10 << 20`. -/
def UploadFile (parse : TokenString → ParseResult) (env : Env) (store : Store)
    (w : ResponseWriter) (cookie : CookieResult) (body : Option (List Part)) : Outcome :=
  let (w, username) := getUsernameFromRequest parse w cookie
  if username = "" then ⟨w, store, []⟩
  else
    match ParseMultipartForm env.tmpFault body 10485760 with
    | none => ⟨httpError w "Could not parse multipart form" StatusBadRequest, store, []⟩
    | some form =>
      match FormFile env.openFault form "file" with
      | none => ⟨httpError w "Could not get uploaded file" StatusBadRequest, store, []⟩
      | some handler =>
        match ReadAll env.readFault handler with
        | none => ⟨httpError w "Could not read file" StatusInternalServerError, store, []⟩
        | some fileBytes =>
          let filename := handler.Filename
          let filePath := filepathJoin ["uploads", filename]
          if env.writeFault then
            ⟨httpError w "Could not save file" StatusInternalServerError, store,
             [Effect.WriteFileFailed filePath]⟩
          else
            let fileInfo : FileInfo := ⟨filename, env.now, username⟩
            ⟨EncodeJson (WriteHeader w StatusCreated) fileInfo,
             { store with files := store.files.insert filename fileInfo },
             [Effect.WriteFile filePath fileBytes]⟩

/-- Function `DownloadFile` (lines 159-182). -/
def DownloadFile (parse : TokenString → ParseResult) (env : Env) (store : Store)
    (w : ResponseWriter) (cookie : CookieResult) (filename : String) : Outcome :=
  let (w, username) := getUsernameFromRequest parse w cookie
  if username = "" then ⟨w, store, []⟩
  else
    match store.files.lookup filename with
    | none => ⟨httpError w "File not found" StatusNotFound, store, []⟩
    | some fileInfo =>
      let filePath := filepathJoin ["uploads", filename]
      ⟨w, store, [Effect.logPrintf fileInfo.Filename username env.now, Effect.ServeFile filePath]⟩

/-- The verifier the running service hands to `getUsernameFromRequest`: jwt-go with the key
function returning `jwtKey` and its clock read during the request. -/
def jwtParse (env : Env) : TokenString → ParseResult :=
  ParseWithClaims jwtKey (Unix env.authNow)

/-- The router of `main` (lines 221-225): one request served against the global store. -/
def serve (bc : Bcrypt) (env : Env) (store : Store) : Request → Outcome
  | .SignUp body => SignUp bc env store ResponseWriter.fresh body
  | .SignIn body => SignIn bc env store ResponseWriter.fresh body
  | .UploadFile cookie body => UploadFile (jwtParse env) env store ResponseWriter.fresh cookie body
  | .DownloadFile cookie filename =>
    DownloadFile (jwtParse env) env store ResponseWriter.fresh cookie filename

/-- Number of entries a map holds under key `k`. -/
def records {V : Type} (m : AList (fun _ : String => V)) (k : String) : Nat :=
  m.keys.count k

/-- A stand-in for bcrypt used to instantiate the theorems at concrete inputs. -/
def demoBcrypt : Bcrypt :=
  ⟨fun password _ _ => if password.length ≤ 72 then some ("$2a$10$" ++ password) else none,
   fun hash password => decide (hash = "$2a$10$" ++ password)⟩

/-- An environment without file-system faults, with both clocks at `t`. -/
def envAt (t : Time) : Env := ⟨t, t, 0, false, false, false, false⟩

/-- The store of the examples: one account, `alice`, registered with password `pw1`. -/
def aliceStore : Store :=
  ⟨(∅ : AList (fun _ : String => User)).insert "alice" ⟨"alice", "$2a$10$pw1"⟩, ∅⟩

/-- The token `SignIn` issues for `u` when the expiry second is `exp`. -/
def tokenFor (u : String) (exp : Int) : TokenString :=
  .compact .HS256 ⟨u, ⟨exp, 0, 0⟩⟩ (.hmac .HS256 jwtKey ⟨u, ⟨exp, 0, 0⟩⟩)

/-- A multipart body with a single file field named `file`. -/
def oneFile (filename : String) (data : List UInt8) : Option (List Part) :=
  some [⟨"file", filename, data⟩]

/-- A file of 10 MiB + 1 bytes. -/
def bigFile : List UInt8 := List.replicate 10485761 0

/-- A store with two accounts, `alice` and `bob`, and two files uploaded by `bob`. -/
def sharedStore : Store :=
  ⟨((∅ : AList (fun _ : String => User)).insert "alice" ⟨"alice", "$2a$10$pw1"⟩).insert
      "bob" ⟨"bob", "$2a$10$pw3"⟩,
   ((∅ : AList (fun _ : String => FileInfo)).insert "a.txt" ⟨"a.txt", 1, "bob"⟩).insert
      "b.txt" ⟨"b.txt", 2, "bob"⟩⟩

/-- An environment without file-system faults, with both clocks at `t` and entropy `r`. -/
def envRand (t : Time) (r : Nat) : Env := ⟨t, t, r, false, false, false, false⟩

/-! ## Runs of the service -/

/-- The token values a response hands to the client in `Set-Cookie` headers. -/
def issued (w : ResponseWriter) : List TokenString :=
  w.cookies.map (fun c => c.Value)

/-- The requests that present no token of foreign origin: an upload request carrying a
`token` cookie carries one of the values in `tokens`. -/
def presentsIssued (tokens : List TokenString) : Request → Prop
  | .UploadFile (.found v) _ => v ∈ tokens
  | _ => True

/-- Any request at all. -/
def anyRequest (_ : List TokenString) (_ : Request) : Prop := True

/-- The states of a run: `Reachable bc allowed store tokens` holds when `store` is the
global store after some sequence of requests served from the empty store, `tokens` are the
token values the responses of that sequence have set as cookies, and each request of the
sequence satisfied `allowed` for the tokens set before it. -/
inductive Reachable (bc : Bcrypt) (allowed : List TokenString → Request → Prop) :
    Store → List TokenString → Prop where
  | init : Reachable bc allowed Store.empty []
  | step {store : Store} {tokens : List TokenString} (env : Env) (req : Request) :
      Reachable bc allowed store tokens → allowed tokens req →
      Reachable bc allowed (serve bc env store req).store
        (tokens ++ issued (serve bc env store req).w)

/-- The request of the examples that uploads `a.txt` with the token `tok`. -/
def uploadWith (tok : TokenString) : Request :=
  .UploadFile (.found tok) (oneFile "a.txt" [104, 105])

/-- The outcome of `alice` signing up on the empty store. -/
def afterSignUp : Outcome :=
  serve demoBcrypt (envAt 5) Store.empty (.SignUp (some ⟨"alice", "pw1"⟩))

/-- The outcome of `alice` then signing in. -/
def afterSignIn : Outcome :=
  serve demoBcrypt (envAt 5) afterSignUp.store (.SignIn (some ⟨"alice", "pw1"⟩))

/-- The outcome of `alice` then uploading `a.txt` with the token that sign-in issued. -/
def afterUpload : Outcome :=
  serve demoBcrypt (envAt 9) afterSignIn.store (uploadWith (tokenFor "alice" 300))

/-- Modelled from the spec: the contract of the password hash of sections 4.1 and 8, which
the code obtains from bcrypt (`golang.org/x/crypto/bcrypt`, not under src/): a hash
produced for a password "verifies against the original plaintext and never equals the
plaintext". -/
def Bcrypt.OneWayHash (bc : Bcrypt) : Prop :=
  (∀ password cost rand hash, bc.GenerateFromPassword password cost rand = some hash →
    bc.CompareHashAndPassword hash password = true)
  ∧ (∀ password cost rand hash, bc.GenerateFromPassword password cost rand = some hash →
    hash ≠ password)

/-! ## Lemmas on maps -/

theorem records_eq_one {V : Type} (m : AList (fun _ : String => V)) (k : String) (v : V)
    (h : m.lookup k = some v) : records m k = 1 := by
  have hmem : k ∈ m.keys := by
    have : k ∈ m := by
      rw [← AList.lookup_isSome, h]; rfl
    exact this
  exact List.count_eq_one_of_mem m.keys_nodup hmem

theorem lookup_insert_isSome {V : Type} (m : AList (fun _ : String => V)) (k k2 : String) (v : V)
    (h : (m.lookup k).isSome) : ((m.insert k2 v).lookup k).isSome := by
  by_cases hk : k = k2
  · subst hk; simp
  · rw [AList.lookup_insert_ne hk]; exact h

/-! ## Lemmas on the response writer -/

theorem WriteHeader_cookies (w : ResponseWriter) (code : Nat) :
    (WriteHeader w code).cookies = w.cookies := by
  unfold WriteHeader
  split <;> rfl

theorem httpError_cookies (w : ResponseWriter) (msg : String) (code : Nat) :
    (httpError w msg code).cookies = w.cookies := by
  simp only [httpError, WriteHeader_cookies]

/-! ## Lemmas on token verification -/

theorem Unix_mono (a b : Time) (h : a ≤ b) : Unix a ≤ Unix b := by
  unfold Unix
  exact_mod_cast Nat.div_le_div_right h

theorem Unix_expiry_pos (t : Nat) : 0 < Unix (t + 5 * Minute) := by
  have h : 0 < (t + 5 * (60 * 1000000000)) / 1000000000 := by omega
  unfold Unix Minute Second
  exact_mod_cast h

theorem tokenFor_accepted (u : String) (exp now : Int) (hexp : exp ≠ 0) (h : now ≤ exp) :
    ParseWithClaims jwtKey now (tokenFor u exp) = ⟨none, true, ⟨u, ⟨exp, 0, 0⟩⟩⟩ := by
  simp [ParseWithClaims, tokenFor, StandardClaims.Valid, verifyExp, verifyIat, verifyNbf,
    SigningMethod.Verify, hexp, h]

theorem tokenFor_expired (u : String) (exp now : Int) (hexp : exp ≠ 0) (h : exp < now) :
    ParseWithClaims jwtKey now (tokenFor u exp)
      = ⟨some (.ValidationError ValidationErrorExpired), false, ⟨u, ⟨exp, 0, 0⟩⟩⟩ := by
  have h2 : ¬ now ≤ exp := not_le.mpr h
  simp [ParseWithClaims, tokenFor, StandardClaims.Valid, verifyExp, verifyIat, verifyNbf,
    SigningMethod.Verify, hexp, h2, ValidationErrorExpired]

theorem ParseWithClaims_claims (key : String) (now : Int) (m : SigningMethod) (c : Claims)
    (sig : Signature) : (ParseWithClaims key now (.compact m c sig)).claims = c := by
  simp only [ParseWithClaims]
  split_ifs <;> rfl

theorem getUsername_result (parse : TokenString → ParseResult) (w : ResponseWriter)
    (tok : TokenString) :
    (getUsernameFromRequest parse w (.found tok)).2 = ""
    ∨ (getUsernameFromRequest parse w (.found tok)).2 = (parse tok).claims.Username := by
  simp only [getUsernameFromRequest]
  split
  · left; rfl
  · left; rfl
  · split
    · left; rfl
    · right; rfl

theorem getUsername_tokenFor (env : Env) (w : ResponseWriter) (u : String) (exp : Int) :
    (getUsernameFromRequest (jwtParse env) w (.found (tokenFor u exp))).2 = ""
    ∨ (getUsernameFromRequest (jwtParse env) w (.found (tokenFor u exp))).2 = u := by
  rcases getUsername_result (jwtParse env) w (tokenFor u exp) with h | h
  · exact Or.inl h
  · right
    rw [h, jwtParse, tokenFor, ParseWithClaims_claims]

theorem getUsername_cookies (parse : TokenString → ParseResult) (cookie : CookieResult) :
    (getUsernameFromRequest parse ResponseWriter.fresh cookie).1.cookies = [] := by
  cases cookie with
  | ErrNoCookie => rfl
  | otherErr => rfl
  | found v =>
    simp only [getUsernameFromRequest]
    split
    · rfl
    · rfl
    · split <;> rfl

/-- With jwt-go every verification failure comes back as a `ValidationError`, never as the
value `ErrSignatureInvalid`: an expired token and a token signed with another key are
answered 400 Bad Request. -/
theorem expired_and_forged_bad_request :
    (jwtParse (envAt (400 * Second)) (tokenFor "alice" 300)).err
        = some (.ValidationError ValidationErrorExpired)
    ∧ (getUsernameFromRequest (jwtParse (envAt (400 * Second))) ResponseWriter.fresh
        (.found (tokenFor "alice" 300))).1.status = some StatusBadRequest
    ∧ (jwtParse (envAt 5) (.compact .HS256 ⟨"alice", ⟨300, 0, 0⟩⟩
          (.hmac .HS256 "another_key" ⟨"alice", ⟨300, 0, 0⟩⟩))).err
        = some (.ValidationError ValidationErrorSignatureInvalid)
    ∧ (getUsernameFromRequest (jwtParse (envAt 5)) ResponseWriter.fresh
        (.found (.compact .HS256 ⟨"alice", ⟨300, 0, 0⟩⟩
          (.hmac .HS256 "another_key" ⟨"alice", ⟨300, 0, 0⟩⟩)))).1.status
        = some StatusBadRequest := by
  refine ⟨by decide, by decide, by decide, by decide⟩

/-! ## Unfolding the handlers -/

theorem UploadFile_dropped (parse : TokenString → ParseResult) (env : Env) (store : Store)
    (w w1 : ResponseWriter) (cookie : CookieResult) (body : Option (List Part))
    (h : getUsernameFromRequest parse w cookie = (w1, "")) :
    UploadFile parse env store w cookie body = ⟨w1, store, []⟩ := by
  simp [UploadFile, h]

theorem UploadFile_authenticated (parse : TokenString → ParseResult) (env : Env) (store : Store)
    (w w1 : ResponseWriter) (cookie : CookieResult) (body : Option (List Part)) (u : String)
    (h : getUsernameFromRequest parse w cookie = (w1, u)) (hu : u ≠ "") :
    UploadFile parse env store w cookie body =
      match ParseMultipartForm env.tmpFault body 10485760 with
      | none => ⟨httpError w1 "Could not parse multipart form" StatusBadRequest, store, []⟩
      | some form =>
        match FormFile env.openFault form "file" with
        | none => ⟨httpError w1 "Could not get uploaded file" StatusBadRequest, store, []⟩
        | some handler =>
          match ReadAll env.readFault handler with
          | none => ⟨httpError w1 "Could not read file" StatusInternalServerError, store, []⟩
          | some fileBytes =>
            if env.writeFault then
              ⟨httpError w1 "Could not save file" StatusInternalServerError, store,
               [Effect.WriteFileFailed (filepathJoin ["uploads", handler.Filename])]⟩
            else
              ⟨EncodeJson (WriteHeader w1 StatusCreated) ⟨handler.Filename, env.now, u⟩,
               { store with files :=
                  store.files.insert handler.Filename ⟨handler.Filename, env.now, u⟩ },
               [Effect.WriteFile (filepathJoin ["uploads", handler.Filename]) fileBytes]⟩ := by
  simp only [UploadFile, h, if_neg hu]

theorem DownloadFile_dropped (parse : TokenString → ParseResult) (env : Env) (store : Store)
    (w w1 : ResponseWriter) (cookie : CookieResult) (filename : String)
    (h : getUsernameFromRequest parse w cookie = (w1, "")) :
    DownloadFile parse env store w cookie filename = ⟨w1, store, []⟩ := by
  simp [DownloadFile, h]

theorem DownloadFile_authenticated (parse : TokenString → ParseResult) (env : Env)
    (store : Store) (w w1 : ResponseWriter) (cookie : CookieResult) (filename u : String)
    (h : getUsernameFromRequest parse w cookie = (w1, u)) (hu : u ≠ "") :
    DownloadFile parse env store w cookie filename =
      match store.files.lookup filename with
      | none => ⟨httpError w1 "File not found" StatusNotFound, store, []⟩
      | some fileInfo =>
        ⟨w1, store, [Effect.logPrintf fileInfo.Filename u env.now,
          Effect.ServeFile (filepathJoin ["uploads", filename])]⟩ := by
  simp only [DownloadFile, h, if_neg hu]

theorem SignIn_success (bc : Bcrypt) (env : Env) (store : Store) (w : ResponseWriter)
    (creds : Credentials) (user : User) (h1 : store.users.lookup creds.Username = some user)
    (h2 : bc.CompareHashAndPassword user.Password creds.Password = true) :
    SignIn bc env store w (some creds)
      = ⟨SetCookie w ⟨"token", tokenFor creds.Username (Unix (env.now + 5 * Minute)),
          env.now + 5 * Minute⟩, store, []⟩ := by
  simp [SignIn, h1, h2, SignedString, tokenFor]

theorem SignIn_cookie (bc : Bcrypt) (env : Env) (store : Store) (creds : Credentials) (c : Cookie)
    (h : c ∈ (SignIn bc env store ResponseWriter.fresh (some creds)).w.cookies) :
    c = ⟨"token", tokenFor creds.Username (Unix (env.now + 5 * Minute)), env.now + 5 * Minute⟩
    ∧ ∃ user, store.users.lookup creds.Username = some user
      ∧ bc.CompareHashAndPassword user.Password creds.Password = true := by
  cases hl : store.users.lookup creds.Username with
  | none => simp [SignIn, hl, httpError, WriteHeader, ResponseWriter.fresh] at h
  | some user =>
    cases hc : bc.CompareHashAndPassword user.Password creds.Password with
    | false => simp [SignIn, hl, hc, httpError, WriteHeader, ResponseWriter.fresh] at h
    | true =>
      simp [SignIn, hl, hc, SignedString, SetCookie, ResponseWriter.fresh] at h
      exact ⟨by rw [h]; rfl, user, rfl, hc⟩

theorem UploadFile_success (parse : TokenString → ParseResult) (env : Env) (store : Store)
    (cookie : CookieResult) (body : Option (List Part)) (u : String) (handler : FileHeader)
    (fileBytes : List UInt8)
    (hu : getUsernameFromRequest parse ResponseWriter.fresh cookie = (ResponseWriter.fresh, u))
    (hne : u ≠ "")
    (hF : (ParseMultipartForm env.tmpFault body 10485760).bind
        (fun form => FormFile env.openFault form "file") = some handler)
    (hread : ReadAll env.readFault handler = some fileBytes)
    (hwrite : env.writeFault = false) :
    UploadFile parse env store ResponseWriter.fresh cookie body
      = ⟨⟨some StatusCreated, [Body.json ⟨handler.Filename, env.now, u⟩], []⟩,
         { store with files :=
            store.files.insert handler.Filename ⟨handler.Filename, env.now, u⟩ },
         [Effect.WriteFile (filepathJoin ["uploads", handler.Filename]) fileBytes]⟩ := by
  rw [UploadFile_authenticated parse env store _ _ cookie body u hu hne]
  cases hform : ParseMultipartForm env.tmpFault body 10485760 with
  | none => simp [hform] at hF
  | some form =>
    simp only [hform, Option.some_bind] at hF
    simp [hF, hread, hwrite, EncodeJson, WriteHeader, ResponseWriter.fresh]

theorem readForm_oneFile (filename : String) (data : List UInt8) (hfn : filename ≠ "") :
    ParseMultipartForm false (oneFile filename data) 10485760
      = some ⟨[], [("file", ⟨filename, data.length, data, decide (10485760 < data.length)⟩)]⟩ := by
  by_cases h : 10485760 < data.length
  · have h2 : (10485760 : Int) < min (data.length : Int) (10485760 + 1) := by
      have : (10485760 : Int) < (data.length : Int) := by exact_mod_cast h
      omega
    simp [ParseMultipartForm, oneFile, readForm, hfn, h, h2]
  · have h2 : ¬ (10485760 : Int) < min (data.length : Int) (10485760 + 1) := by
      have : ¬ (10485760 : Int) < (data.length : Int) := by exact_mod_cast h
      omega
    simp [ParseMultipartForm, oneFile, readForm, hfn, h, h2]

theorem UploadFile_oneFile (parse : TokenString → ParseResult) (env : Env) (store : Store)
    (cookie : CookieResult) (u filename : String) (data : List UInt8)
    (hu : getUsernameFromRequest parse ResponseWriter.fresh cookie = (ResponseWriter.fresh, u))
    (hne : u ≠ "") (hfn : filename ≠ "")
    (htmp : env.tmpFault = false) (hopen : env.openFault = false)
    (hread : env.readFault = false) (hwrite : env.writeFault = false) :
    UploadFile parse env store ResponseWriter.fresh cookie (oneFile filename data)
      = ⟨⟨some StatusCreated, [Body.json ⟨filename, env.now, u⟩], []⟩,
         { store with files := store.files.insert filename ⟨filename, env.now, u⟩ },
         [Effect.WriteFile (filepathJoin ["uploads", filename]) data]⟩ := by
  rw [UploadFile_authenticated parse env store _ _ cookie _ u hu hne, htmp,
    readForm_oneFile filename data hfn]
  simp [FormFile, ReadAll, hopen, hread, hwrite, EncodeJson, WriteHeader, ResponseWriter.fresh]

theorem bigFile_length : bigFile.length = 10485761 :=
  List.length_replicate 10485761 (0 : UInt8)

theorem demoBcrypt_differs (password : String) (cost rand : Nat) (hash : String)
    (h : demoBcrypt.GenerateFromPassword password cost rand = some hash) : hash ≠ password := by
  intro heq
  simp only [demoBcrypt] at h
  split at h
  · have h2 := congrArg String.length (Option.some.inj h)
    rw [heq, String.length_append] at h2
    have h3 : ("$2a$10$" : String).length = 7 := by decide
    omega
  · exact absurd h (by simp)

theorem demoBcrypt_verifies (password : String) (cost rand : Nat) (hash : String)
    (h : demoBcrypt.GenerateFromPassword password cost rand = some hash) :
    demoBcrypt.CompareHashAndPassword hash password = true := by
  simp only [demoBcrypt] at h
  split at h
  · simp [demoBcrypt, ← Option.some.inj h]
  · exact absurd h (by simp)

/-! ## What each handler leaves unchanged -/

theorem SignUp_frame (bc : Bcrypt) (env : Env) (store : Store) (body : Option Credentials) :
    (SignUp bc env store ResponseWriter.fresh body).w.cookies = []
    ∧ (SignUp bc env store ResponseWriter.fresh body).store.files = store.files
    ∧ ∀ u, (store.users.lookup u).isSome →
        ((SignUp bc env store ResponseWriter.fresh body).store.users.lookup u).isSome := by
  cases body with
  | none => simp [SignUp, httpError, WriteHeader, ResponseWriter.fresh]
  | some creds =>
    cases hgen : bc.GenerateFromPassword creds.Password DefaultCost env.rand with
    | none => simp [SignUp, hgen, httpError, WriteHeader, ResponseWriter.fresh]
    | some hash =>
      refine ⟨by simp [SignUp, hgen, WriteHeader, ResponseWriter.fresh], by simp [SignUp, hgen], ?_⟩
      intro u hu
      have : (SignUp bc env store ResponseWriter.fresh (some creds)).store.users
          = store.users.insert creds.Username ⟨creds.Username, hash⟩ := by
        simp [SignUp, hgen]
      rw [this]
      exact lookup_insert_isSome _ _ _ _ hu

theorem SignIn_frame (bc : Bcrypt) (env : Env) (store : Store) (body : Option Credentials) :
    (SignIn bc env store ResponseWriter.fresh body).store = store
    ∧ ∀ tok ∈ issued (SignIn bc env store ResponseWriter.fresh body).w,
        ∃ u exp, tok = tokenFor u exp ∧ (store.users.lookup u).isSome := by
  cases body with
  | none => simp [SignIn, issued, httpError, WriteHeader, ResponseWriter.fresh]
  | some creds =>
    refine ⟨?_, ?_⟩
    · simp only [SignIn, SignedString]
      split <;> rfl
    · intro tok htok
      simp only [issued, List.mem_map] at htok
      obtain ⟨c, hc, rfl⟩ := htok
      obtain ⟨hval, user, hl, -⟩ := SignIn_cookie bc env store creds c hc
      exact ⟨creds.Username, Unix (env.now + 5 * Minute), by rw [hval], by rw [hl]; rfl⟩

theorem UploadFile_frame (parse : TokenString → ParseResult) (env : Env) (store : Store)
    (cookie : CookieResult) (body : Option (List Part)) :
    (UploadFile parse env store ResponseWriter.fresh cookie body).w.cookies = []
    ∧ (UploadFile parse env store ResponseWriter.fresh cookie body).store.users = store.users
    ∧ ((UploadFile parse env store ResponseWriter.fresh cookie body).store.files = store.files
      ∨ ((getUsernameFromRequest parse ResponseWriter.fresh cookie).2 ≠ ""
        ∧ ∃ F, (UploadFile parse env store ResponseWriter.fresh cookie body).store.files
          = store.files.insert F
              ⟨F, env.now, (getUsernameFromRequest parse ResponseWriter.fresh cookie).2⟩)) := by
  have hc := getUsername_cookies parse cookie
  rcases hg : getUsernameFromRequest parse ResponseWriter.fresh cookie with ⟨w1, u⟩
  rw [hg] at hc
  simp only at hc ⊢
  by_cases hu : u = ""
  · subst hu
    rw [UploadFile_dropped parse env store _ _ cookie body hg]
    exact ⟨hc, rfl, Or.inl rfl⟩
  · rw [UploadFile_authenticated parse env store _ _ cookie body u hg hu]
    split
    · exact ⟨by simp only [httpError_cookies, hc], rfl, Or.inl rfl⟩
    · split
      · exact ⟨by simp only [httpError_cookies, hc], rfl, Or.inl rfl⟩
      · split
        · exact ⟨by simp only [httpError_cookies, hc], rfl, Or.inl rfl⟩
        · split
          · exact ⟨by simp only [httpError_cookies, hc], rfl, Or.inl rfl⟩
          · refine ⟨?_, rfl, Or.inr ⟨hu, _, rfl⟩⟩
            simp only [EncodeJson, WriteHeader_cookies, hc]

theorem DownloadFile_frame (parse : TokenString → ParseResult) (env : Env) (store : Store)
    (cookie : CookieResult) (filename : String) :
    (DownloadFile parse env store ResponseWriter.fresh cookie filename).w.cookies = []
    ∧ (DownloadFile parse env store ResponseWriter.fresh cookie filename).store = store := by
  have hc := getUsername_cookies parse cookie
  rcases hg : getUsernameFromRequest parse ResponseWriter.fresh cookie with ⟨w1, u⟩
  rw [hg] at hc
  simp only at hc
  by_cases hu : u = ""
  · subst hu
    rw [DownloadFile_dropped parse env store _ _ cookie filename hg]
    exact ⟨hc, rfl⟩
  · rw [DownloadFile_authenticated parse env store _ _ cookie filename u hg hu]
    split
    · exact ⟨by simp only [httpError_cookies, hc], rfl⟩
    · exact ⟨hc, rfl⟩

/-- What an upload leaves in the files map, when the token it presents was issued for an
existing account: records whose uploader has an account. -/
theorem upload_keeps_uploaders (env : Env) (store : Store) (tokens : List TokenString)
    (cookie : CookieResult) (body : Option (List Part))
    (htok : ∀ tok ∈ tokens, ∃ u exp, tok = tokenFor u exp ∧ (store.users.lookup u).isSome)
    (hfiles : ∀ F rec, store.files.lookup F = some rec → (store.users.lookup rec.Uploader).isSome)
    (hreq : presentsIssued tokens (.UploadFile cookie body)) :
    ∀ F rec,
      (UploadFile (jwtParse env) env store ResponseWriter.fresh cookie body).store.files.lookup F
        = some rec →
      (store.users.lookup rec.Uploader).isSome := by
  intro F rec hrec
  rcases (UploadFile_frame (jwtParse env) env store cookie body).2.2 with hsame | ⟨hne, G, hins⟩
  · rw [hsame] at hrec
    exact hfiles F rec hrec
  · rw [hins] at hrec
    by_cases hFG : F = G
    · subst hFG
      rw [AList.lookup_insert] at hrec
      have hrec2 := Option.some.inj hrec
      rw [← hrec2]
      cases cookie with
      | ErrNoCookie => exact absurd rfl hne
      | otherErr => exact absurd rfl hne
      | found v =>
        obtain ⟨u, exp, hv, hacct⟩ := htok v hreq
        subst hv
        rcases getUsername_tokenFor env ResponseWriter.fresh u exp with h | h
        · exact absurd h hne
        · rw [h]
          exact hacct
    · rw [AList.lookup_insert_ne hFG] at hrec
      exact hfiles F rec hrec

theorem reachable_inv (bc : Bcrypt) (store : Store) (tokens : List TokenString)
    (h : Reachable bc presentsIssued store tokens) :
    (∀ tok ∈ tokens, ∃ u exp, tok = tokenFor u exp ∧ (store.users.lookup u).isSome)
    ∧ (∀ F rec, store.files.lookup F = some rec → (store.users.lookup rec.Uploader).isSome) := by
  induction h with
  | init =>
    refine ⟨by simp, ?_⟩
    intro F rec hrec
    simp [Store.empty] at hrec
  | @step store tokens env req _ hreq ih =>
    obtain ⟨htok, hfiles⟩ := ih
    cases req with
    | SignUp body =>
      obtain ⟨hc, hf, hu⟩ := SignUp_frame bc env store body
      simp only [serve, issued, hc, List.map_nil, List.append_nil, hf]
      refine ⟨?_, ?_⟩
      · intro tok ht
        obtain ⟨u, exp, h1, h2⟩ := htok tok ht
        exact ⟨u, exp, h1, hu u h2⟩
      · intro F rec hrec
        exact hu _ (hfiles F rec hrec)
    | SignIn body =>
      obtain ⟨hs, hi⟩ := SignIn_frame bc env store body
      simp only [serve, hs]
      refine ⟨?_, hfiles⟩
      intro tok ht
      rcases List.mem_append.mp ht with h1 | h1
      · exact htok tok h1
      · exact hi tok h1
    | UploadFile cookie body =>
      obtain ⟨hc, hu, -⟩ := UploadFile_frame (jwtParse env) env store cookie body
      simp only [serve, issued, hc, List.map_nil, List.append_nil, hu]
      exact ⟨htok, upload_keeps_uploaders env store tokens cookie body htok hfiles hreq⟩
    | DownloadFile cookie filename =>
      obtain ⟨hc, hs⟩ := DownloadFile_frame (jwtParse env) env store cookie filename
      simp only [serve, issued, hc, List.map_nil, List.append_nil, hs]
      exact ⟨htok, hfiles⟩

/-! ## Token verification failures (C1) -/

/-- C1 (as stated, refuted): a request whose `token` cookie is not a well-formed token fails
verification, and getUsernameFromRequest answers it 400 Bad Request, not 401. -/
theorem malformed_token_bad_request :
    (jwtParse (envAt 5) (.malformed "garbage")).err
      = some (.ValidationError ValidationErrorMalformed)
    ∧ getUsernameFromRequest (jwtParse (envAt 5)) ResponseWriter.fresh
        (.found (.malformed "garbage"))
      = (⟨some StatusBadRequest, [Body.text "Bad request"], []⟩, "")
    ∧ StatusBadRequest ≠ StatusUnauthorized := by
  refine ⟨by decide, by decide, by decide⟩

/-- C1 (amended): for a request carrying a `token` cookie whose value fails verification,
whatever the verifier, getUsernameFromRequest yields no identity and writes exactly one
error: 401 Unauthorized when the error is the value `jwt.ErrSignatureInvalid` itself or when
there is no error but the token is not flagged valid, and 400 Bad Request for every other
verification error; UploadFile and DownloadFile then do nothing more (store unchanged, no
effect, the response is that error). -/
theorem verification_failure_rejected (parse : TokenString → ParseResult) (env : Env)
    (store : Store) (tokenStr : TokenString) (body : Option (List Part)) (filename : String)
    (hfail : (parse tokenStr).err ≠ none ∨ (parse tokenStr).Valid = false) :
    getUsernameFromRequest parse ResponseWriter.fresh (.found tokenStr)
      = (if (parse tokenStr).err = some .ErrSignatureInvalid ∨ (parse tokenStr).err = none
          then ⟨some StatusUnauthorized, [Body.text "Unauthorized"], []⟩
          else ⟨some StatusBadRequest, [Body.text "Bad request"], []⟩, "")
    ∧ UploadFile parse env store ResponseWriter.fresh (.found tokenStr) body
      = ⟨(getUsernameFromRequest parse ResponseWriter.fresh (.found tokenStr)).1, store, []⟩
    ∧ DownloadFile parse env store ResponseWriter.fresh (.found tokenStr) filename
      = ⟨(getUsernameFromRequest parse ResponseWriter.fresh (.found tokenStr)).1, store, []⟩ := by
  have h1 : getUsernameFromRequest parse ResponseWriter.fresh (.found tokenStr)
      = (if (parse tokenStr).err = some .ErrSignatureInvalid ∨ (parse tokenStr).err = none
          then ⟨some StatusUnauthorized, [Body.text "Unauthorized"], []⟩
          else ⟨some StatusBadRequest, [Body.text "Bad request"], []⟩, "") := by
    cases herr : (parse tokenStr).err with
    | none =>
      have hv : (parse tokenStr).Valid = false := by
        rcases hfail with h | h
        · exact absurd herr h
        · exact h
      simp [getUsernameFromRequest, herr, hv, httpError, WriteHeader, ResponseWriter.fresh]
    | some e =>
      cases e with
      | ErrSignatureInvalid =>
        simp [getUsernameFromRequest, herr, httpError, WriteHeader, ResponseWriter.fresh]
      | ValidationError n =>
        simp [getUsernameFromRequest, herr, httpError, WriteHeader, ResponseWriter.fresh]
  refine ⟨h1, ?_, ?_⟩
  · rw [h1]; exact UploadFile_dropped parse env store _ _ _ body h1
  · rw [h1]; exact DownloadFile_dropped parse env store _ _ _ filename h1

theorem verification_failure_rejected_witness :
    ((jwtParse (envAt 5) (.malformed "garbage")).err ≠ none
      ∨ (jwtParse (envAt 5) (.malformed "garbage")).Valid = false)
    ∧ getUsernameFromRequest (jwtParse (envAt 5)) ResponseWriter.fresh
        (.found (.malformed "garbage"))
      = (if (jwtParse (envAt 5) (.malformed "garbage")).err = some .ErrSignatureInvalid
            ∨ (jwtParse (envAt 5) (.malformed "garbage")).err = none
          then ⟨some StatusUnauthorized, [Body.text "Unauthorized"], []⟩
          else ⟨some StatusBadRequest, [Body.text "Bad request"], []⟩, "") :=
  ⟨by decide,
   (verification_failure_rejected (jwtParse (envAt 5)) (envAt 5) aliceStore (.malformed "garbage")
     none "a.txt" (by decide)).1⟩

/-! ## The validity window of a session token (C2) -/

/-- C2 (as stated, refuted): the token issued at the whole second `t = 1700000000 s` has
expiry `t + 5 minutes`, and one nanosecond after that expiry getUsernameFromRequest still
accepts it and returns the username. -/
theorem token_accepted_after_expiry :
    (SignIn demoBcrypt (envAt (1700000000 * Second)) aliceStore ResponseWriter.fresh
        (some ⟨"alice", "pw1"⟩)).w.cookies
      = [⟨"token", tokenFor "alice" 1700000300, 1700000000 * Second + 5 * Minute⟩]
    ∧ 1700000000 * Second + 5 * Minute < 1700000000 * Second + 5 * Minute + 1
    ∧ getUsernameFromRequest (jwtParse (envAt (1700000000 * Second + 5 * Minute + 1)))
        ResponseWriter.fresh (.found (tokenFor "alice" 1700000300))
      = (ResponseWriter.fresh, "alice") := by
  refine ⟨by decide, by decide, by decide⟩

/-- C2 (amended): the cookie SignIn sets for `u` at time `t` expires at `t + 5 minutes` and
carries the token whose expiry claim is that instant in whole Unix seconds.
getUsernameFromRequest returns `u` for it, writing no error, at every time strictly before
`t + 5 minutes`, and more generally as long as the Unix second of the current time is not
after the expiry second; it rejects it (400 Bad Request, no identity) at every time whose
Unix second is after the expiry second. -/
theorem signin_token_window (bc : Bcrypt) (env : Env) (store : Store) (creds : Credentials)
    (c : Cookie)
    (hissued : c ∈ (SignIn bc env store ResponseWriter.fresh (some creds)).w.cookies) :
    c.Name = "token"
    ∧ c.Expires = env.now + 5 * Minute
    ∧ c.Value = tokenFor creds.Username (Unix (env.now + 5 * Minute))
    ∧ (∀ env2 : Env, env2.authNow < env.now + 5 * Minute →
        getUsernameFromRequest (jwtParse env2) ResponseWriter.fresh (.found c.Value)
          = (ResponseWriter.fresh, creds.Username))
    ∧ (∀ env2 : Env, Unix env2.authNow ≤ Unix (env.now + 5 * Minute) →
        getUsernameFromRequest (jwtParse env2) ResponseWriter.fresh (.found c.Value)
          = (ResponseWriter.fresh, creds.Username))
    ∧ (∀ env2 : Env, Unix (env.now + 5 * Minute) < Unix env2.authNow →
        getUsernameFromRequest (jwtParse env2) ResponseWriter.fresh (.found c.Value)
          = (⟨some StatusBadRequest, [Body.text "Bad request"], []⟩, "")) := by
  obtain ⟨hc, -⟩ := SignIn_cookie bc env store creds c hissued
  have hpos : Unix (env.now + 5 * Minute) ≠ 0 := ne_of_gt (Unix_expiry_pos env.now)
  have hacc : ∀ env2 : Env, Unix env2.authNow ≤ Unix (env.now + 5 * Minute) →
      getUsernameFromRequest (jwtParse env2) ResponseWriter.fresh (.found c.Value)
        = (ResponseWriter.fresh, creds.Username) := by
    intro env2 h
    simp [getUsernameFromRequest, jwtParse, hc, tokenFor_accepted _ _ _ hpos h]
  refine ⟨by rw [hc], by rw [hc], by rw [hc], ?_, hacc, ?_⟩
  · intro env2 h
    exact hacc env2 (Unix_mono _ _ (Nat.le_of_lt h))
  · intro env2 h
    simp [getUsernameFromRequest, jwtParse, hc, tokenFor_expired _ _ _ hpos h, httpError,
      WriteHeader, ResponseWriter.fresh]

theorem signin_token_window_witness :
    (⟨"token", tokenFor "alice" 1700000300, 1700000000 * Second + 5 * Minute⟩ : Cookie)
      ∈ (SignIn demoBcrypt (envAt (1700000000 * Second)) aliceStore ResponseWriter.fresh
          (some ⟨"alice", "pw1"⟩)).w.cookies
    ∧ (∀ env2 : Env, Unix (1700000000 * Second + 5 * Minute) < Unix env2.authNow →
        getUsernameFromRequest (jwtParse env2) ResponseWriter.fresh
            (.found (tokenFor "alice" 1700000300))
          = (⟨some StatusBadRequest, [Body.text "Bad request"], []⟩, "")) :=
  ⟨by decide,
   (signin_token_window demoBcrypt (envAt (1700000000 * Second)) aliceStore ⟨"alice", "pw1"⟩
     ⟨"token", tokenFor "alice" 1700000300, 1700000000 * Second + 5 * Minute⟩
     (by decide)).2.2.2.2.2⟩

/-! ## Failed sign-in (C3) -/

/-- C3: on any store, a sign-in for a username that is not registered and a sign-in with a
wrong password for a registered username get the same response, status 401 with the message
"Invalid username or password" and no cookie, and both leave the store as it was. -/
theorem signin_failures_indistinguishable (bc : Bcrypt) (env1 env2 : Env) (store : Store)
    (unknown wrong : Credentials) (user : User)
    (hunknown : store.users.lookup unknown.Username = none)
    (hknown : store.users.lookup wrong.Username = some user)
    (hwrong : bc.CompareHashAndPassword user.Password wrong.Password = false) :
    (SignIn bc env1 store ResponseWriter.fresh (some unknown)).w
      = (SignIn bc env2 store ResponseWriter.fresh (some wrong)).w
    ∧ (SignIn bc env1 store ResponseWriter.fresh (some unknown)).w
      = ⟨some StatusUnauthorized, [Body.text "Invalid username or password"], []⟩
    ∧ (SignIn bc env1 store ResponseWriter.fresh (some unknown)).store = store
    ∧ (SignIn bc env2 store ResponseWriter.fresh (some wrong)).store = store
    ∧ (SignIn bc env1 store ResponseWriter.fresh (some unknown)).effects = []
    ∧ (SignIn bc env2 store ResponseWriter.fresh (some wrong)).effects = [] := by
  simp [SignIn, hunknown, hknown, hwrong, httpError, WriteHeader, ResponseWriter.fresh]

theorem signin_failures_indistinguishable_witness :
    aliceStore.users.lookup "bob" = none
    ∧ aliceStore.users.lookup "alice" = some ⟨"alice", "$2a$10$pw1"⟩
    ∧ demoBcrypt.CompareHashAndPassword "$2a$10$pw1" "wrong" = false
    ∧ (SignIn demoBcrypt (envAt 5) aliceStore ResponseWriter.fresh (some ⟨"bob", "pw1"⟩)).w
      = (SignIn demoBcrypt (envAt 9) aliceStore ResponseWriter.fresh (some ⟨"alice", "wrong"⟩)).w
    ∧ (SignIn demoBcrypt (envAt 5) aliceStore ResponseWriter.fresh (some ⟨"bob", "pw1"⟩)).w
      = ⟨some StatusUnauthorized, [Body.text "Invalid username or password"], []⟩ :=
  ⟨by decide, by decide, by decide,
   (signin_failures_indistinguishable demoBcrypt (envAt 5) (envAt 9) aliceStore ⟨"bob", "pw1"⟩
     ⟨"alice", "wrong"⟩ ⟨"alice", "$2a$10$pw1"⟩ (by decide) (by decide) (by decide)).1,
   (signin_failures_indistinguishable demoBcrypt (envAt 5) (envAt 9) aliceStore ⟨"bob", "pw1"⟩
     ⟨"alice", "wrong"⟩ ⟨"alice", "$2a$10$pw1"⟩ (by decide) (by decide) (by decide)).2.1⟩

/-! ## Requests without a cookie (C4) -/

/-- C4: a request to UploadFile or DownloadFile without a `token` cookie is answered 401
Unauthorized; the users map and the files map are unchanged, and no file is written or
served (the handler performs no effect at all). -/
theorem no_cookie_unauthorized (parse : TokenString → ParseResult) (env : Env) (store : Store)
    (body : Option (List Part)) (filename : String) :
    (UploadFile parse env store ResponseWriter.fresh .ErrNoCookie body).w.status
        = some StatusUnauthorized
    ∧ (UploadFile parse env store ResponseWriter.fresh .ErrNoCookie body).store.users = store.users
    ∧ (UploadFile parse env store ResponseWriter.fresh .ErrNoCookie body).store.files = store.files
    ∧ (UploadFile parse env store ResponseWriter.fresh .ErrNoCookie body).effects = []
    ∧ (DownloadFile parse env store ResponseWriter.fresh .ErrNoCookie filename).w.status
        = some StatusUnauthorized
    ∧ (DownloadFile parse env store ResponseWriter.fresh .ErrNoCookie filename).store.users
        = store.users
    ∧ (DownloadFile parse env store ResponseWriter.fresh .ErrNoCookie filename).store.files
        = store.files
    ∧ (DownloadFile parse env store ResponseWriter.fresh .ErrNoCookie filename).effects = [] := by
  simp [UploadFile, DownloadFile, getUsernameFromRequest, httpError, WriteHeader,
    ResponseWriter.fresh]

/-! ## Stored passwords (C5) -/

/-- C5: with bcrypt meeting its contract (a hash it produces verifies against the password
it was produced from and is not that password), whenever SignUp answers 201 to the payload
`creds` the value stored as password of `creds.Username` is the bcrypt hash of
`creds.Password`: it verifies against the plaintext, it differs from the plaintext, and a
following SignIn with the same payload succeeds (no error is written and the `token`
cookie is set). -/
theorem signup_stores_verifying_hash (bc : Bcrypt) (env : Env) (store : Store)
    (creds : Credentials) (hbc : bc.OneWayHash)
    (hcreated : (SignUp bc env store ResponseWriter.fresh (some creds)).w.status
      = some StatusCreated) :
    ∃ hash, bc.GenerateFromPassword creds.Password DefaultCost env.rand = some hash
      ∧ (SignUp bc env store ResponseWriter.fresh (some creds)).store.users.lookup creds.Username
          = some ⟨creds.Username, hash⟩
      ∧ bc.CompareHashAndPassword hash creds.Password = true
      ∧ hash ≠ creds.Password
      ∧ (∀ env2 : Env,
          (SignIn bc env2 (SignUp bc env store ResponseWriter.fresh (some creds)).store
              ResponseWriter.fresh (some creds)).w
            = ⟨none, [], [⟨"token", tokenFor creds.Username (Unix (env2.now + 5 * Minute)),
                env2.now + 5 * Minute⟩]⟩) := by
  cases hgen : bc.GenerateFromPassword creds.Password DefaultCost env.rand with
  | none =>
    simp [SignUp, hgen, httpError, WriteHeader, ResponseWriter.fresh, StatusCreated,
      StatusInternalServerError] at hcreated
  | some hash =>
    have hlook : (SignUp bc env store ResponseWriter.fresh (some creds)).store.users.lookup
        creds.Username = some ⟨creds.Username, hash⟩ := by
      simp [SignUp, hgen]
    have hcmp := hbc.1 _ _ _ _ hgen
    refine ⟨hash, rfl, hlook, hcmp, hbc.2 _ _ _ _ hgen, ?_⟩
    intro env2
    rw [SignIn_success bc env2 _ _ creds ⟨creds.Username, hash⟩ hlook hcmp]
    rfl

theorem signup_stores_verifying_hash_witness :
    demoBcrypt.OneWayHash
    ∧ (SignUp demoBcrypt (envAt 5) Store.empty ResponseWriter.fresh (some ⟨"alice", "pw1"⟩)).w.status
      = some StatusCreated
    ∧ ∃ hash, demoBcrypt.GenerateFromPassword "pw1" DefaultCost (envAt 5).rand = some hash
      ∧ (SignUp demoBcrypt (envAt 5) Store.empty ResponseWriter.fresh
          (some ⟨"alice", "pw1"⟩)).store.users.lookup "alice" = some ⟨"alice", hash⟩
      ∧ demoBcrypt.CompareHashAndPassword hash "pw1" = true
      ∧ hash ≠ "pw1" :=
  ⟨⟨demoBcrypt_verifies, demoBcrypt_differs⟩, by decide,
   (signup_stores_verifying_hash demoBcrypt (envAt 5) Store.empty ⟨"alice", "pw1"⟩
     ⟨demoBcrypt_verifies, demoBcrypt_differs⟩ (by decide)).imp
     (fun _ h => ⟨h.1, h.2.1, h.2.2.1, h.2.2.2.1⟩)⟩

/-! ## Upload replaces the record of a file name (C6) -/

/-- C6: an UploadFile that succeeds (the caller is authenticated as `u`, the form parses and
its file field `file` declares the file name `F`, reading and writing the bytes do not
fail) answers 201 with the record, writes the bytes to `uploads/F`, and leaves the files
map with exactly one record under `F`, that record having filename `F` and uploader `u`,
whatever was recorded under `F` before; the records of every other file name and the users
map are unchanged; and a following DownloadFile of `F` by any authenticated caller finds
that record (it logs the access and serves the file instead of answering 404). -/
theorem upload_last_write_wins (parse : TokenString → ParseResult) (env : Env) (store : Store)
    (cookie : CookieResult) (body : Option (List Part)) (u : String) (handler : FileHeader)
    (fileBytes : List UInt8)
    (hu : getUsernameFromRequest parse ResponseWriter.fresh cookie = (ResponseWriter.fresh, u))
    (hne : u ≠ "")
    (hF : (ParseMultipartForm env.tmpFault body 10485760).bind
        (fun form => FormFile env.openFault form "file") = some handler)
    (hread : ReadAll env.readFault handler = some fileBytes)
    (hwrite : env.writeFault = false) :
    (UploadFile parse env store ResponseWriter.fresh cookie body).w
        = ⟨some StatusCreated, [Body.json ⟨handler.Filename, env.now, u⟩], []⟩
    ∧ (UploadFile parse env store ResponseWriter.fresh cookie body).effects
        = [Effect.WriteFile (filepathJoin ["uploads", handler.Filename]) fileBytes]
    ∧ (UploadFile parse env store ResponseWriter.fresh cookie body).store.files.lookup
        handler.Filename = some ⟨handler.Filename, env.now, u⟩
    ∧ records (UploadFile parse env store ResponseWriter.fresh cookie body).store.files
        handler.Filename = 1
    ∧ (∀ G, G ≠ handler.Filename →
        (UploadFile parse env store ResponseWriter.fresh cookie body).store.files.lookup G
          = store.files.lookup G)
    ∧ (UploadFile parse env store ResponseWriter.fresh cookie body).store.users = store.users
    ∧ (∀ (parse2 : TokenString → ParseResult) (env2 : Env) (cookie2 : CookieResult) (v : String),
        getUsernameFromRequest parse2 ResponseWriter.fresh cookie2 = (ResponseWriter.fresh, v) →
        v ≠ "" →
        DownloadFile parse2 env2 (UploadFile parse env store ResponseWriter.fresh cookie body).store
            ResponseWriter.fresh cookie2 handler.Filename
          = ⟨ResponseWriter.fresh,
             (UploadFile parse env store ResponseWriter.fresh cookie body).store,
             [Effect.logPrintf handler.Filename v env2.now,
              Effect.ServeFile (filepathJoin ["uploads", handler.Filename])]⟩) := by
  rw [UploadFile_success parse env store cookie body u handler fileBytes hu hne hF hread hwrite]
  refine ⟨rfl, rfl, AList.lookup_insert _, records_eq_one _ _ _ (AList.lookup_insert _), ?_, rfl,
    ?_⟩
  · intro G hG
    exact AList.lookup_insert_ne hG
  · intro parse2 env2 cookie2 v hv hv2
    rw [DownloadFile_authenticated parse2 env2 _ _ _ cookie2 handler.Filename v hv hv2]
    simp only [AList.lookup_insert]

theorem upload_last_write_wins_witness :
    sharedStore.files.lookup "a.txt" = some ⟨"a.txt", 1, "bob"⟩
    ∧ getUsernameFromRequest (jwtParse (envAt 5)) ResponseWriter.fresh
        (.found (tokenFor "alice" 300)) = (ResponseWriter.fresh, "alice")
    ∧ (ParseMultipartForm (envAt 5).tmpFault (oneFile "a.txt" [104, 105]) 10485760).bind
        (fun form => FormFile (envAt 5).openFault form "file") = some ⟨"a.txt", 2, [104, 105], false⟩
    ∧ ReadAll (envAt 5).readFault ⟨"a.txt", 2, [104, 105], false⟩ = some [104, 105]
    ∧ (UploadFile (jwtParse (envAt 5)) (envAt 5) sharedStore ResponseWriter.fresh
        (.found (tokenFor "alice" 300)) (oneFile "a.txt" [104, 105])).w
        = ⟨some StatusCreated, [Body.json ⟨"a.txt", 5, "alice"⟩], []⟩
    ∧ (UploadFile (jwtParse (envAt 5)) (envAt 5) sharedStore ResponseWriter.fresh
        (.found (tokenFor "alice" 300)) (oneFile "a.txt" [104, 105])).store.files.lookup "a.txt"
        = some ⟨"a.txt", 5, "alice"⟩
    ∧ records (UploadFile (jwtParse (envAt 5)) (envAt 5) sharedStore ResponseWriter.fresh
        (.found (tokenFor "alice" 300)) (oneFile "a.txt" [104, 105])).store.files "a.txt" = 1
    ∧ (UploadFile (jwtParse (envAt 5)) (envAt 5) sharedStore ResponseWriter.fresh
        (.found (tokenFor "alice" 300)) (oneFile "a.txt" [104, 105])).store.files.lookup "b.txt"
        = some ⟨"b.txt", 2, "bob"⟩
    ∧ (UploadFile (jwtParse (envAt 5)) (envAt 5) sharedStore ResponseWriter.fresh
        (.found (tokenFor "alice" 300)) (oneFile "a.txt" [104, 105])).store.users
        = sharedStore.users
    ∧ DownloadFile (jwtParse (envAt 9)) (envAt 9)
        (UploadFile (jwtParse (envAt 5)) (envAt 5) sharedStore ResponseWriter.fresh
          (.found (tokenFor "alice" 300)) (oneFile "a.txt" [104, 105])).store
        ResponseWriter.fresh (.found (tokenFor "bob" 300)) "a.txt"
      = ⟨ResponseWriter.fresh,
         (UploadFile (jwtParse (envAt 5)) (envAt 5) sharedStore ResponseWriter.fresh
          (.found (tokenFor "alice" 300)) (oneFile "a.txt" [104, 105])).store,
         [Effect.logPrintf "a.txt" "bob" 9, Effect.ServeFile (filepathJoin ["uploads", "a.txt"])]⟩ :=
  ⟨by decide, by decide, by decide, by decide,
   (upload_last_write_wins (jwtParse (envAt 5)) (envAt 5) sharedStore (.found (tokenFor "alice" 300))
     (oneFile "a.txt" [104, 105]) "alice" ⟨"a.txt", 2, [104, 105], false⟩ [104, 105]
     (by decide) (by decide) (by decide) (by decide) rfl).1,
   (upload_last_write_wins (jwtParse (envAt 5)) (envAt 5) sharedStore (.found (tokenFor "alice" 300))
     (oneFile "a.txt" [104, 105]) "alice" ⟨"a.txt", 2, [104, 105], false⟩ [104, 105]
     (by decide) (by decide) (by decide) (by decide) rfl).2.2.1,
   (upload_last_write_wins (jwtParse (envAt 5)) (envAt 5) sharedStore (.found (tokenFor "alice" 300))
     (oneFile "a.txt" [104, 105]) "alice" ⟨"a.txt", 2, [104, 105], false⟩ [104, 105]
     (by decide) (by decide) (by decide) (by decide) rfl).2.2.2.1,
   ((upload_last_write_wins (jwtParse (envAt 5)) (envAt 5) sharedStore (.found (tokenFor "alice" 300))
     (oneFile "a.txt" [104, 105]) "alice" ⟨"a.txt", 2, [104, 105], false⟩ [104, 105]
     (by decide) (by decide) (by decide) (by decide) rfl).2.2.2.2.1 "b.txt" (by decide)).trans
       (by decide),
   (upload_last_write_wins (jwtParse (envAt 5)) (envAt 5) sharedStore (.found (tokenFor "alice" 300))
     (oneFile "a.txt" [104, 105]) "alice" ⟨"a.txt", 2, [104, 105], false⟩ [104, 105]
     (by decide) (by decide) (by decide) (by decide) rfl).2.2.2.2.2.1,
   (upload_last_write_wins (jwtParse (envAt 5)) (envAt 5) sharedStore (.found (tokenFor "alice" 300))
     (oneFile "a.txt" [104, 105]) "alice" ⟨"a.txt", 2, [104, 105], false⟩ [104, 105]
     (by decide) (by decide) (by decide) (by decide) rfl).2.2.2.2.2.2 (jwtParse (envAt 9)) (envAt 9)
       (.found (tokenFor "bob" 300)) "bob" (by decide) (by decide)⟩

/-! ## Uploaders and accounts (C7) -/

/-- C7 (as stated, refuted): on the empty store, an upload presenting a token that is
correctly signed for the username `ghost` is served (`jwtKey` is a constant of the source,
and a token issued before a restart of the process is such a token); the reachable store
then holds a FileRecord whose uploader `ghost` has no account, neither at the time of the
upload nor afterwards. -/
theorem upload_by_unregistered :
    Reachable demoBcrypt anyRequest
      (serve demoBcrypt (envAt 5) Store.empty (uploadWith (tokenFor "ghost" 300))).store
      ([] ++ issued (serve demoBcrypt (envAt 5) Store.empty (uploadWith (tokenFor "ghost" 300))).w)
    ∧ (serve demoBcrypt (envAt 5) Store.empty
        (uploadWith (tokenFor "ghost" 300))).store.files.lookup "a.txt"
      = some ⟨"a.txt", 5, "ghost"⟩
    ∧ Store.empty.users.lookup "ghost" = none
    ∧ (serve demoBcrypt (envAt 5) Store.empty
        (uploadWith (tokenFor "ghost" 300))).store.users.lookup "ghost" = none :=
  ⟨Reachable.step (envAt 5) (uploadWith (tokenFor "ghost" 300)) Reachable.init trivial,
   by decide, by decide, by decide⟩

/-- C7 (amended): in every store state reachable from the empty store by a sequence of
SignUp, SignIn, UploadFile and DownloadFile requests in which every token presented to
UploadFile is one that an earlier SignIn of the sequence set as cookie, every FileRecord in
the files map has an uploader with an account in the users map; and every record in the
files map after a further such upload has an uploader whose account is in the users map
at the time that upload is served. -/
theorem uploader_has_account (bc : Bcrypt) (store : Store) (tokens : List TokenString)
    (h : Reachable bc presentsIssued store tokens) :
    (∀ F rec, store.files.lookup F = some rec →
      ∃ acct, store.users.lookup rec.Uploader = some acct)
    ∧ (∀ (env : Env) (cookie : CookieResult) (body : Option (List Part)) F rec,
        presentsIssued tokens (.UploadFile cookie body) →
        (serve bc env store (.UploadFile cookie body)).store.files.lookup F = some rec →
        ∃ acct, store.users.lookup rec.Uploader = some acct) := by
  obtain ⟨htok, hfiles⟩ := reachable_inv bc store tokens h
  refine ⟨?_, ?_⟩
  · intro F rec hrec
    exact Option.isSome_iff_exists.mp (hfiles F rec hrec)
  · intro env cookie body F rec hreq hrec
    exact Option.isSome_iff_exists.mp
      (upload_keeps_uploaders env store tokens cookie body htok hfiles hreq F rec hrec)

theorem uploader_has_account_witness :
    Reachable demoBcrypt presentsIssued afterUpload.store
      ((([] ++ issued afterSignUp.w) ++ issued afterSignIn.w) ++ issued afterUpload.w)
    ∧ afterUpload.store.files.lookup "a.txt" = some ⟨"a.txt", 9, "alice"⟩
    ∧ (∀ F rec, afterUpload.store.files.lookup F = some rec →
        ∃ acct, afterUpload.store.users.lookup rec.Uploader = some acct) :=
  ⟨Reachable.step (envAt 9) (uploadWith (tokenFor "alice" 300))
      (Reachable.step (envAt 5) (.SignIn (some ⟨"alice", "pw1"⟩))
        (Reachable.step (envAt 5) (.SignUp (some ⟨"alice", "pw1"⟩)) Reachable.init trivial)
        trivial)
      (show tokenFor "alice" 300 ∈ _ by decide),
   by decide,
   (uploader_has_account demoBcrypt afterUpload.store _
     (Reachable.step (envAt 9) (uploadWith (tokenFor "alice" 300))
      (Reachable.step (envAt 5) (.SignIn (some ⟨"alice", "pw1"⟩))
        (Reachable.step (envAt 5) (.SignUp (some ⟨"alice", "pw1"⟩)) Reachable.init trivial)
        trivial)
      (show tokenFor "alice" 300 ∈ _ by decide))).1⟩

/-! ## The size of an upload (C8) -/

/-- C8 (as stated, refuted): an authenticated upload whose single file field holds
10 MiB + 1 bytes is not rejected: UploadFile answers 201 with the record, writes all the
bytes to `uploads/big.bin` and adds the FileRecord. -/
theorem oversized_upload_accepted :
    10 * 2 ^ 20 < bigFile.length
    ∧ (UploadFile (jwtParse (envAt 5)) (envAt 5) aliceStore ResponseWriter.fresh
        (.found (tokenFor "alice" 300)) (oneFile "big.bin" bigFile)).w
      = ⟨some StatusCreated, [Body.json ⟨"big.bin", 5, "alice"⟩], []⟩
    ∧ (UploadFile (jwtParse (envAt 5)) (envAt 5) aliceStore ResponseWriter.fresh
        (.found (tokenFor "alice" 300)) (oneFile "big.bin" bigFile)).effects
      = [Effect.WriteFile (filepathJoin ["uploads", "big.bin"]) bigFile]
    ∧ (UploadFile (jwtParse (envAt 5)) (envAt 5) aliceStore ResponseWriter.fresh
        (.found (tokenFor "alice" 300)) (oneFile "big.bin" bigFile)).store.files.lookup "big.bin"
      = some ⟨"big.bin", 5, "alice"⟩ := by
  have h := UploadFile_oneFile (jwtParse (envAt 5)) (envAt 5) aliceStore
    (.found (tokenFor "alice" 300)) "alice" "big.bin" bigFile
    (by decide) (by decide) (by decide) rfl rfl rfl rfl
  rw [h]
  refine ⟨?_, rfl, rfl, ?_⟩
  · rw [bigFile_length]; norm_num
  · exact AList.lookup_insert _

/-- C8 (amended): an authenticated upload is rejected with 400, writing no file and adding
no FileRecord, when the body cannot be parsed as a multipart form or has no file field
`file`; the size of the body is not a reason for rejection.  The 10 MiB passed to
ParseMultipartForm bound what is kept in memory, and an upload whose only part is a file
field `file` of any size is, when no file-system call fails, answered 201, written in
whole (never truncated) and recorded. -/
theorem upload_rejects_unparsable_not_large (parse : TokenString → ParseResult) (env : Env)
    (store : Store) (cookie : CookieResult) (u : String)
    (hu : getUsernameFromRequest parse ResponseWriter.fresh cookie = (ResponseWriter.fresh, u))
    (hne : u ≠ "") :
    (∀ body, ParseMultipartForm env.tmpFault body 10485760 = none →
      UploadFile parse env store ResponseWriter.fresh cookie body
        = ⟨⟨some StatusBadRequest, [Body.text "Could not parse multipart form"], []⟩, store, []⟩)
    ∧ (∀ form body, ParseMultipartForm env.tmpFault body 10485760 = some form →
        FormFile env.openFault form "file" = none →
        UploadFile parse env store ResponseWriter.fresh cookie body
          = ⟨⟨some StatusBadRequest, [Body.text "Could not get uploaded file"], []⟩, store, []⟩)
    ∧ (∀ (filename : String) (data : List UInt8), filename ≠ "" →
        env.tmpFault = false → env.openFault = false → env.readFault = false →
        env.writeFault = false →
        UploadFile parse env store ResponseWriter.fresh cookie (oneFile filename data)
          = ⟨⟨some StatusCreated, [Body.json ⟨filename, env.now, u⟩], []⟩,
             { store with files := store.files.insert filename ⟨filename, env.now, u⟩ },
             [Effect.WriteFile (filepathJoin ["uploads", filename]) data]⟩) := by
  refine ⟨?_, ?_, ?_⟩
  · intro body hparse
    rw [UploadFile_authenticated parse env store _ _ cookie _ u hu hne, hparse]
    simp [httpError, WriteHeader, ResponseWriter.fresh]
  · intro form body hparse hfile
    rw [UploadFile_authenticated parse env store _ _ cookie _ u hu hne, hparse]
    simp [hfile, httpError, WriteHeader, ResponseWriter.fresh]
  · intro filename data hfn htmp hopen hread hwrite
    exact UploadFile_oneFile parse env store cookie u filename data hu hne hfn htmp hopen hread
      hwrite

theorem upload_rejects_unparsable_not_large_witness :
    getUsernameFromRequest (jwtParse (envAt 5)) ResponseWriter.fresh (.found (tokenFor "alice" 300))
      = (ResponseWriter.fresh, "alice")
    ∧ "alice" ≠ ""
    ∧ UploadFile (jwtParse (envAt 5)) (envAt 5) aliceStore ResponseWriter.fresh
        (.found (tokenFor "alice" 300)) none
      = ⟨⟨some StatusBadRequest, [Body.text "Could not parse multipart form"], []⟩, aliceStore, []⟩ :=
  ⟨by decide, by decide,
   (upload_rejects_unparsable_not_large (jwtParse (envAt 5)) (envAt 5) aliceStore
     (.found (tokenFor "alice" 300)) "alice" (by decide) (by decide)).1 none rfl⟩

/-! ## Signing up again (C9) -/

/-- C9: when the store already holds an account for `u`, a SignUp for `u` with password `p`
whose hashing succeeds answers 201 and writes no conflict or other error (the response is
the bare status), replaces the account of `u` by one holding the bcrypt hash of `p`, leaves
the account of every other username and the files map unchanged, and the users map knows
the same usernames as before and holds exactly one account for `u` before and after, and
exactly one for every username it knows. -/
theorem signup_overwrites_existing (bc : Bcrypt) (env : Env) (store : Store) (u p : String)
    (old : User) (hash : String) (hold : store.users.lookup u = some old)
    (hhash : bc.GenerateFromPassword p DefaultCost env.rand = some hash) :
    (SignUp bc env store ResponseWriter.fresh (some ⟨u, p⟩)).w = ⟨some StatusCreated, [], []⟩
    ∧ (SignUp bc env store ResponseWriter.fresh (some ⟨u, p⟩)).store.users.lookup u
        = some ⟨u, hash⟩
    ∧ (∀ v, v ≠ u →
        (SignUp bc env store ResponseWriter.fresh (some ⟨u, p⟩)).store.users.lookup v
          = store.users.lookup v)
    ∧ (SignUp bc env store ResponseWriter.fresh (some ⟨u, p⟩)).store.files = store.files
    ∧ (∀ v, v ∈ (SignUp bc env store ResponseWriter.fresh (some ⟨u, p⟩)).store.users
        ↔ v ∈ store.users)
    ∧ records store.users u = 1
    ∧ records (SignUp bc env store ResponseWriter.fresh (some ⟨u, p⟩)).store.users u = 1
    ∧ (∀ v acct,
        (SignUp bc env store ResponseWriter.fresh (some ⟨u, p⟩)).store.users.lookup v = some acct →
        records (SignUp bc env store ResponseWriter.fresh (some ⟨u, p⟩)).store.users v = 1)
    ∧ (SignUp bc env store ResponseWriter.fresh (some ⟨u, p⟩)).effects = [] := by
  have hout : SignUp bc env store ResponseWriter.fresh (some ⟨u, p⟩)
      = ⟨⟨some StatusCreated, [], []⟩,
         { store with users := store.users.insert u ⟨u, hash⟩ }, []⟩ := by
    simp [SignUp, hhash, WriteHeader, ResponseWriter.fresh]
  have hmem : u ∈ store.users := by
    rw [← AList.lookup_isSome, hold]; rfl
  rw [hout]
  refine ⟨rfl, AList.lookup_insert _, ?_, rfl, ?_, records_eq_one _ _ _ hold,
    records_eq_one _ _ _ (AList.lookup_insert _), ?_, rfl⟩
  · intro v hv
    exact AList.lookup_insert_ne hv
  · intro v
    simp only [AList.mem_insert]
    constructor
    · rintro (h | h)
      · rw [h]; exact hmem
      · exact h
    · intro h
      exact Or.inr h
  · intro v acct hv
    exact records_eq_one _ _ acct hv

theorem signup_overwrites_existing_witness :
    sharedStore.users.lookup "alice" = some ⟨"alice", "$2a$10$pw1"⟩
    ∧ demoBcrypt.GenerateFromPassword "pw2" DefaultCost (envRand 7 3).rand = some "$2a$10$pw2"
    ∧ (SignUp demoBcrypt (envRand 7 3) sharedStore ResponseWriter.fresh
        (some ⟨"alice", "pw2"⟩)).w = ⟨some StatusCreated, [], []⟩
    ∧ (SignUp demoBcrypt (envRand 7 3) sharedStore ResponseWriter.fresh
        (some ⟨"alice", "pw2"⟩)).store.users.lookup "alice" = some ⟨"alice", "$2a$10$pw2"⟩
    ∧ (SignUp demoBcrypt (envRand 7 3) sharedStore ResponseWriter.fresh
        (some ⟨"alice", "pw2"⟩)).store.users.lookup "bob" = some ⟨"bob", "$2a$10$pw3"⟩
    ∧ (SignUp demoBcrypt (envRand 7 3) sharedStore ResponseWriter.fresh
        (some ⟨"alice", "pw2"⟩)).store.files = sharedStore.files
    ∧ records (SignUp demoBcrypt (envRand 7 3) sharedStore ResponseWriter.fresh
        (some ⟨"alice", "pw2"⟩)).store.users "alice" = 1 :=
  ⟨by decide, by decide,
   (signup_overwrites_existing demoBcrypt (envRand 7 3) sharedStore "alice" "pw2"
     ⟨"alice", "$2a$10$pw1"⟩ "$2a$10$pw2" (by decide) (by decide)).1,
   (signup_overwrites_existing demoBcrypt (envRand 7 3) sharedStore "alice" "pw2"
     ⟨"alice", "$2a$10$pw1"⟩ "$2a$10$pw2" (by decide) (by decide)).2.1,
   ((signup_overwrites_existing demoBcrypt (envRand 7 3) sharedStore "alice" "pw2"
     ⟨"alice", "$2a$10$pw1"⟩ "$2a$10$pw2" (by decide) (by decide)).2.2.1 "bob"
       (by decide)).trans (by decide),
   (signup_overwrites_existing demoBcrypt (envRand 7 3) sharedStore "alice" "pw2"
     ⟨"alice", "$2a$10$pw1"⟩ "$2a$10$pw2" (by decide) (by decide)).2.2.2.1,
   (signup_overwrites_existing demoBcrypt (envRand 7 3) sharedStore "alice" "pw2"
     ⟨"alice", "$2a$10$pw1"⟩ "$2a$10$pw2" (by decide) (by decide)).2.2.2.2.2.2.1⟩

/-! ## The empty username (C10) -/

/-- C10: the token that SignIn issues for the account with the empty username verifies, yet
getUsernameFromRequest returns the empty string for it without writing any response, and
UploadFile and DownloadFile then return at once: no status is written, nothing is stored,
written, logged or served. -/
theorem empty_username_dropped :
    (SignUp demoBcrypt (envAt 5) Store.empty ResponseWriter.fresh (some ⟨"", "pw"⟩)).w.status
      = some StatusCreated
    ∧ (SignIn demoBcrypt (envAt 5)
        (SignUp demoBcrypt (envAt 5) Store.empty ResponseWriter.fresh (some ⟨"", "pw"⟩)).store
        ResponseWriter.fresh (some ⟨"", "pw"⟩)).w
      = ⟨none, [], [⟨"token", tokenFor "" 300, 5 + 5 * Minute⟩]⟩
    ∧ jwtParse (envAt 9) (tokenFor "" 300) = ⟨none, true, ⟨"", ⟨300, 0, 0⟩⟩⟩
    ∧ getUsernameFromRequest (jwtParse (envAt 9)) ResponseWriter.fresh (.found (tokenFor "" 300))
      = (⟨none, [], []⟩, "")
    ∧ UploadFile (jwtParse (envAt 9)) (envAt 9) aliceStore ResponseWriter.fresh
        (.found (tokenFor "" 300)) (oneFile "a.txt" [104, 105])
      = ⟨⟨none, [], []⟩, aliceStore, []⟩
    ∧ DownloadFile (jwtParse (envAt 9)) (envAt 9) aliceStore ResponseWriter.fresh
        (.found (tokenFor "" 300)) "a.txt"
      = ⟨⟨none, [], []⟩, aliceStore, []⟩ := by
  refine ⟨by decide, by decide, by decide, by decide, ?_, ?_⟩
  · exact UploadFile_dropped _ _ _ _ _ _ _ (by decide)
  · exact DownloadFile_dropped _ _ _ _ _ _ _ (by decide)

end FileUploadService
